import Mathlib

/-!
Verification development for the `useReflectAttribute` composable
(src: the single logic-bearing file of `@glare-labs/vue-reflect-attribute`).

The development shallowly embeds the synchronization engine:
  * `JSVal` models the JavaScript values that may sit in a bound ref
    (strings, numbers restricted to the decimal integers the claims touch,
    booleans, `null`, `undefined`).
  * the element's attribute state and the ref store are association lists,
    with `getAttribute` / `setAttribute` / `removeAttribute` / `hasAttribute`
    mirroring the DOM calls made by the source.
  * `makeAttributeConfigMap`, `initialSyncOne` (body of the per-binding loop
    in `mountedCallback`), `watchCallback` (the Ref -> DOM watcher),
    `processRecord` / `observerCallback` (the MutationObserver callback)
    are translated statement by statement from the source file.
-/

/-- A JavaScript runtime value as it can appear in a bound ref or flow through
the engine.  JS numbers are modelled as integers: every number the claims
mention is a decimal integer, and `Number` parse failure (NaN) is modelled by
`Option` at the parsing boundary. -/
inductive JSVal where
  | str : String → JSVal
  | num : Int → JSVal
  | bool : Bool → JSVal
  | null : JSVal
  | undef : JSVal
deriving DecidableEq, Repr

/-- JavaScript `typeof` on the modelled values (`typeof null` is `"object"`). -/
def jsTypeof : JSVal → String
  | JSVal.str _ => "string"
  | JSVal.num _ => "number"
  | JSVal.bool _ => "boolean"
  | JSVal.null => "object"
  | JSVal.undef => "undefined"

/-- The source's `isType` helper: `null` and `"undefined"` are special-cased,
every other expectation is a `typeof` comparison.  `none` models the literal
`null` expectation argument. -/
def isType (anyTypeValue : JSVal) (expectedType : Option String) : Bool :=
  match expectedType with
  | none => anyTypeValue == JSVal.null
  | some "undefined" => anyTypeValue == JSVal.undef
  | some t => jsTypeof anyTypeValue == t

/-- JavaScript truthiness, as used by `Boolean(value)` in the source's
registration-time coercion. -/
def jsTruthy : JSVal → Bool
  | JSVal.str s => s != ""
  | JSVal.num n => n != 0
  | JSVal.bool b => b
  | JSVal.null => false
  | JSVal.undef => false

/-- The character for a decimal digit `d < 10`. -/
def digitChar (d : Nat) : Char := Char.ofNat (48 + d)

/-- Big-endian decimal digits of a natural number, recursing on a fuel bound
so that the definition reduces inside the kernel; any fuel above the number
itself suffices since dividing by ten shrinks it. -/
def natToCharsAux : Nat → Nat → List Char
  | 0, _ => []
  | fuel + 1, n =>
    if n < 10 then [digitChar n]
    else natToCharsAux fuel (n / 10) ++ [digitChar (n % 10)]

/-- Big-endian decimal digits of a natural number (host model for the decimal
rendering used by JS `String(number)`). -/
def natToChars (n : Nat) : List Char := natToCharsAux (n + 1) n

/-- Decimal rendering of a JS (integer) number, as `String(number)` yields. -/
def jsNumToString (i : Int) : String :=
  ⟨if i < 0 then '-' :: natToChars i.natAbs else natToChars i.natAbs⟩

/-- Numeric value of a digit list, folded most-significant first. -/
def digitsVal (l : List Char) : Nat :=
  l.foldl (fun a c => a * 10 + (c.toNat - 48)) 0

/-- Parse a nonempty all-digit character list; anything else is `none` (NaN). -/
def digitsToNat (l : List Char) : Option Nat :=
  if l ≠ [] ∧ l.all Char.isDigit then some (digitsVal l) else none

/-- Host model of JS `Number(string)` on a character list: the empty string is
`0`, an optional sign followed by decimal digits parses, anything else is NaN
(`none`).  (JS also trims whitespace and accepts hex/float/exponent forms;
no value handled by the claims or the source examples uses those.) -/
def jsStringToNumberList (l : List Char) : Option Int :=
  match l with
  | [] => some 0
  | c :: rest =>
    if c = '-' then (digitsToNat rest).map (fun n => -(Int.ofNat n))
    else if c = '+' then (digitsToNat rest).map Int.ofNat
    else (digitsToNat (c :: rest)).map Int.ofNat

/-- Host model of JS `Number(string)`: `none` models NaN. -/
def jsStringToNumber (s : String) : Option Int :=
  jsStringToNumberList s.data

/-- Host model of JS `Number(value)` on the modelled values (`none` is NaN). -/
def jsToNumber : JSVal → Option Int
  | JSVal.str s => jsStringToNumber s
  | JSVal.num n => some n
  | JSVal.bool b => some (if b then 1 else 0)
  | JSVal.null => some 0
  | JSVal.undef => none

/-- Host model of JS `String(value)` on the modelled values. -/
def jsToString : JSVal → String
  | JSVal.str s => s
  | JSVal.num n => jsNumToString n
  | JSVal.bool b => if b then "true" else "false"
  | JSVal.null => "null"
  | JSVal.undef => "undefined"

/-- Lookup in an association list (first match wins, like `Map.get` /
first-occurrence attribute lookup). -/
def assocGet {κ α : Type} [DecidableEq κ] : List (κ × α) → κ → Option α
  | [], _ => none
  | p :: rest, k => if p.1 = k then some p.2 else assocGet rest k

/-- Insert-or-replace in an association list (like `Map.set` /
`Element.setAttribute`). -/
def assocSet {κ α : Type} [DecidableEq κ] : List (κ × α) → κ → α → List (κ × α)
  | [], k, v => [(k, v)]
  | p :: rest, k, v => if p.1 = k then (k, v) :: rest else p :: assocSet rest k v

/-- Remove a key from an association list (like `Element.removeAttribute`). -/
def assocRemove {κ α : Type} [DecidableEq κ] : List (κ × α) → κ → List (κ × α)
  | [], _ => []
  | p :: rest, k => if p.1 = k then assocRemove rest k else p :: assocRemove rest k

/-- The element's attribute state: attribute name to string content. -/
abbrev Dom := List (String × String)

/-- The ref store: ref identity to current value. -/
abbrev Cells := List (Nat × JSVal)

/-- DOM `getAttribute` (absent attribute reads as `null`, here `none`). -/
def getAttribute (dom : Dom) (name : String) : Option String :=
  assocGet dom name

/-- DOM `hasAttribute`. -/
def hasAttribute (dom : Dom) (name : String) : Bool :=
  (getAttribute dom name).isSome

/-- DOM `setAttribute`. -/
def setAttribute (dom : Dom) (name v : String) : Dom :=
  assocSet dom name v

/-- DOM `removeAttribute`. -/
def removeAttribute (dom : Dom) (name : String) : Dom :=
  assocRemove dom name

/-- Read a ref's current value (`.value`); an unknown ref id reads as
`undefined`, which never occurs in the claims' scenarios. -/
def storeGet (cells : Cells) (r : Nat) : JSVal :=
  (assocGet cells r).getD JSVal.undef

/-- Write a ref's value (`.value = v`). -/
def storeSet (cells : Cells) (r : Nat) (v : JSVal) : Cells :=
  assocSet cells r v

/-- The effective attribute type of a binding (`'string' | 'boolean' | 'number'`). -/
inductive AttrType where
  | string : AttrType
  | boolean : AttrType
  | number : AttrType
deriving DecidableEq, Repr

/-- A raw attribute declaration (`AttributeRefConfig` in the source, the three
interfaces collapsed into one record).  `attribute = none` models a missing
name field; `ref = none` models a missing / `null` / `undefined` ref (a
present ref object is always truthy); `type` / `reflect` are the optional
fields, `none` meaning the key is absent. -/
structure AttributeRefConfig where
  attr : Option String
  ref : Option Nat
  type : Option AttrType
  reflect : Option Bool
deriving DecidableEq, Repr

/-- A resolved per-attribute configuration (`Required<AttributeRefConfig>`). -/
structure EffConfig where
  attr : String
  ref : Nat
  type : AttrType
  reflect : Bool
deriving DecidableEq, Repr

/-- The source's truthiness guard `config && config.attr && config.ref`:
the name must be a nonempty string and the ref present (JS truthiness on
both fields). -/
def declValid (c : AttributeRefConfig) : Bool :=
  (match c.attr with
   | some s => s != ""
   | none => false) && c.ref.isSome

/-- The effective configuration built by the spread
`{ reflect: config.reflect ?? true, type: config.type ?? 'string', ...config }`:
since an absent key does not overwrite, the defaults are `'string'` and
`true`. -/
def effectiveOf (c : AttributeRefConfig) : EffConfig :=
  ⟨c.attr.getD "", c.ref.getD 0, c.type.getD AttrType.string, c.reflect.getD true⟩

/-- The registration-time coercion of the bound ref's current value
(source lines 67-72): a Boolean-typed binding whose value is neither boolean,
`null` nor `undefined` is replaced by `Boolean(value)`; a Number-typed one by
`Number(value)`, with NaN becoming `null`. -/
def coerceRegistration (eff : EffConfig) (cells : Cells) : Cells :=
  let v := storeGet cells eff.ref
  if eff.type = AttrType.boolean ∧ !(isType v (some "boolean"))
      ∧ !(isType v none) ∧ !(isType v (some "undefined")) then
    storeSet cells eff.ref (JSVal.bool (jsTruthy v))
  else if eff.type = AttrType.number ∧ !(isType v (some "boolean"))
      ∧ !(isType v none) ∧ !(isType v (some "undefined")) then
    storeSet cells eff.ref
      (match jsToNumber v with
       | none => JSVal.null
       | some n => JSVal.num n)
  else cells

/-- Accumulated result of configuration normalization: the binding table, the
(possibly coerced) ref store, and the number of `console.warn` calls. -/
structure ConfigResult where
  map : List (String × EffConfig)
  cells : Cells
  warnings : Nat
deriving DecidableEq, Repr

/-- One iteration of the `attributes.forEach` loop in `makeAttributeConfigMap`:
a valid declaration is resolved, its ref coerced, and stored in the map
(last write wins); an invalid one logs a warning and is skipped. -/
def configStep (acc : ConfigResult) (c : AttributeRefConfig) : ConfigResult :=
  if declValid c then
    ⟨assocSet acc.map (effectiveOf c).attr (effectiveOf c),
     coerceRegistration (effectiveOf c) acc.cells,
     acc.warnings⟩
  else ⟨acc.map, acc.cells, acc.warnings + 1⟩

/-- `makeAttributeConfigMap` (source lines 56-81), with the ref store threaded
explicitly since the coercion writes through the refs. -/
def makeAttributeConfigMap (attrs : List AttributeRefConfig) (cells : Cells) :
    ConfigResult :=
  attrs.foldl configStep ⟨[], cells, 0⟩

/-- The desired DOM content for a non-boolean binding's value
(`newValue === null || newValue === undefined ? null : String(newValue)`). -/
def desiredDomValue (v : JSVal) : Option String :=
  if v = JSVal.null ∨ v = JSVal.undef then none else some (jsToString v)

/-- The Ref -> DOM write step shared (verbatim-duplicated in the source)
between the watcher body (lines 147-179) and the initial push of
`mountedCallback` (lines 202-234): compute the desired DOM state from the
value, compare against the current DOM state, and write only on difference.
Returns the new DOM state and whether a write was performed. -/
def syncDom (t : AttrType) (name : String) (v : JSVal) (dom : Dom) : Dom × Bool :=
  if t = AttrType.boolean then
    let desiredDomPresence := v == JSVal.bool true
    if hasAttribute dom name ≠ desiredDomPresence then
      ((if desiredDomPresence then setAttribute dom name ""
        else removeAttribute dom name), true)
    else (dom, false)
  else
    let desired := desiredDomValue v
    if getAttribute dom name ≠ desired then
      ((match desired with
        | none => removeAttribute dom name
        | some s => setAttribute dom name s), true)
    else (dom, false)

/-- Interpretation of the element's attribute state used by the reflect pull
of `mountedCallback` (source lines 241-248): presence test for Boolean,
parse-or-null for Number, raw-or-null otherwise. -/
def interpretInitial (t : AttrType) (dom : Dom) (name : String) : JSVal :=
  if t = AttrType.boolean then JSVal.bool (hasAttribute dom name)
  else if t = AttrType.number then
    match getAttribute dom name with
    | none => JSVal.null
    | some s =>
      match jsStringToNumber s with
      | none => JSVal.null
      | some n => JSVal.num n
  else
    match getAttribute dom name with
    | none => JSVal.null
    | some s => JSVal.str s

/-- Interpretation of the element's attribute state used by the
MutationObserver callback (source lines 273-278): presence test for Boolean,
otherwise `newValue ?? null`.  The source has no Number branch here, so a
Number binding's record is interpreted as the raw string. -/
def interpretObserver (t : AttrType) (dom : Dom) (name : String) : JSVal :=
  if t = AttrType.boolean then JSVal.bool (hasAttribute dom name)
  else
    match getAttribute dom name with
    | none => JSVal.null
    | some s => JSVal.str s

/-- The mutable world the engine acts on: whether the target element is still
attached (`targetRef.value` non-null), the element's attributes, the ref
store, the `isUpdatingDomFromRef` flag, and the log of
`onAttributeChange` invocations (name, old raw, new raw, interpreted). -/
structure EngineState where
  attached : Bool
  dom : Dom
  cells : Cells
  flag : Bool
  callbackLog : List (String × Option String × Option String × JSVal)
deriving DecidableEq, Repr

/-- The Ref -> DOM watcher body (source lines 143-182): bail out when the
target is gone, otherwise perform the compare-and-write; when a DOM write
happens, `isUpdatingDomFromRef` is raised (its deferred clearing is
`timeoutClearFlag`). -/
def watchCallback (config : EffConfig) (newValue : JSVal) (st : EngineState) :
    EngineState :=
  if st.attached then
    let r := syncDom config.type config.attr newValue st.dom
    if r.2 then ⟨st.attached, r.1, st.cells, true, st.callbackLog⟩ else st
  else st

/-- The zero-delay `setTimeout` that clears `isUpdatingDomFromRef`; by the
deferred-clear discipline it runs only after the mutation records caused by
the engine's own write have been processed. -/
def timeoutClearFlag (st : EngineState) : EngineState :=
  ⟨st.attached, st.dom, st.cells, false, st.callbackLog⟩

/-- A user assignment to a bound ref together with the watcher invocation it
triggers (`watch(config.ref, ...)` fires with the new value after the ref is
written). -/
def cellWrite (config : EffConfig) (v : JSVal) (st : EngineState) : EngineState :=
  watchCallback config v
    ⟨st.attached, st.dom, storeSet st.cells config.ref v, st.flag, st.callbackLog⟩

/-- The body of the per-binding loop of `mountedCallback` (source lines
186-253): unconditionally push the ref's value to the DOM, then, when
`reflect` is `true`, re-read the attribute, interpret it, and assign it to
the ref if different. -/
def initialSyncOne (config : EffConfig) (st : EngineState) : EngineState :=
  let dom1 := (syncDom config.type config.attr
                (storeGet st.cells config.ref) st.dom).1
  let cells1 :=
    if config.reflect then
      let interpreted := interpretInitial config.type dom1 config.attr
      if storeGet st.cells config.ref ≠ interpreted then
        storeSet st.cells config.ref interpreted
      else st.cells
    else st.cells
  ⟨st.attached, dom1, cells1, st.flag, st.callbackLog⟩

/-- The whole initial reconciliation: the per-binding loop in registration
order (the observer installation that follows it is `observerCallback`). -/
def mountedCallback (configMap : List (String × EffConfig)) (st : EngineState) :
    EngineState :=
  configMap.foldl (fun s p => initialSyncOne p.2 s) st

/-- A MutationObserver record: its `type === 'attributes'` test, its
`target === currentTarget` test, the attribute's name, and the captured old
raw value. -/
structure MutationRecord where
  isAttributes : Bool
  targetIsCurrent : Bool
  attributeName : String
  oldValue : Option String
deriving DecidableEq, Repr

/-- Processing of one record by the MutationObserver callback (source lines
263-292): records for other targets or unbound attributes are ignored; the
new raw value is re-read from the element; `onAttributeChange` fires only
when the self-write flag is down, a callback was provided, and the raw value
actually changed; the ref is assigned the interpreted value only when
`reflect` is `true` and the value differs. -/
def processRecord (configMap : List (String × EffConfig)) (hasCallback : Bool)
    (st : EngineState) (record : MutationRecord) : EngineState :=
  if record.isAttributes ∧ record.targetIsCurrent then
    match assocGet configMap record.attributeName with
    | some config =>
      let newValue := getAttribute st.dom record.attributeName
      let interpretedNewValue :=
        interpretObserver config.type st.dom record.attributeName
      let log1 :=
        if ¬st.flag ∧ hasCallback ∧ record.oldValue ≠ newValue then
          st.callbackLog ++
            [(record.attributeName, record.oldValue, newValue, interpretedNewValue)]
        else st.callbackLog
      let cells1 :=
        if config.reflect ∧ storeGet st.cells config.ref ≠ interpretedNewValue then
          storeSet st.cells config.ref interpretedNewValue
        else st.cells
      ⟨st.attached, st.dom, cells1, st.flag, log1⟩
    | none => st
  else st

/-- The MutationObserver callback (source lines 259-293): bail out when the
target is gone, otherwise process the batched records in order. -/
def observerCallback (configMap : List (String × EffConfig)) (hasCallback : Bool)
    (st : EngineState) (records : List MutationRecord) : EngineState :=
  if st.attached then records.foldl (processRecord configMap hasCallback) st
  else st

/-- A value is well-typed for a binding when it inhabits the declared ref type
(`Ref<boolean>`, `Ref<string | null>`, `Ref<number | null>`). -/
def wellTyped : AttrType → JSVal → Bool
  | AttrType.boolean, JSVal.bool _ => true
  | AttrType.string, JSVal.str _ => true
  | AttrType.string, JSVal.null => true
  | AttrType.number, JSVal.num _ => true
  | AttrType.number, JSVal.null => true
  | _, _ => false

/-- The element's observable attribute state agrees with a value: presence
for Boolean bindings, exact content otherwise. -/
def domMatches (t : AttrType) (v : JSVal) (raw : Option String) : Bool :=
  if t = AttrType.boolean then raw.isSome == (v == JSVal.bool true)
  else raw == desiredDomValue v

theorem assocGet_set_self {κ α : Type} [DecidableEq κ] (l : List (κ × α)) (k : κ) (v : α) :
    assocGet (assocSet l k v) k = some v := by
  induction l with
  | nil => simp [assocSet, assocGet]
  | cons p rest ih =>
    by_cases h : p.1 = k
    · simp [assocSet, h, assocGet]
    · simp [assocSet, h, assocGet, ih]

theorem assocGet_remove_self {κ α : Type} [DecidableEq κ] (l : List (κ × α)) (k : κ) :
    assocGet (assocRemove l k) k = none := by
  induction l with
  | nil => simp [assocRemove, assocGet]
  | cons p rest ih =>
    by_cases h : p.1 = k
    · simp [assocRemove, h, ih]
    · simp [assocRemove, h, assocGet, ih]

theorem digitChar_toNat {d : Nat} (h : d < 10) : (digitChar d).toNat = 48 + d := by
  interval_cases d <;> decide

theorem digitChar_isDigit {d : Nat} (h : d < 10) : (digitChar d).isDigit = true := by
  interval_cases d <;> decide

theorem natToCharsAux_ne_nil : ∀ fuel n : Nat, n < fuel → natToCharsAux fuel n ≠ [] := by
  intro fuel
  induction fuel with
  | zero =>
    intro n h
    exact absurd h (Nat.not_lt_zero n)
  | succ fuel ih =>
    intro n h
    rw [natToCharsAux]
    split <;> simp

theorem natToCharsAux_all_digit : ∀ fuel n : Nat, n < fuel →
    (natToCharsAux fuel n).all Char.isDigit = true := by
  intro fuel
  induction fuel with
  | zero =>
    intro n h
    exact absurd h (Nat.not_lt_zero n)
  | succ fuel ih =>
    intro n h
    rw [natToCharsAux]
    split
    · rename_i h10
      simpa using digitChar_isDigit h10
    · rename_i h10
      rw [List.all_append]
      simp only [Bool.and_eq_true]
      constructor
      · exact ih (n / 10) (by omega)
      · simpa using digitChar_isDigit (Nat.mod_lt n (by omega))

theorem natToCharsAux_foldl : ∀ fuel n : Nat, n < fuel → ∀ a : Nat,
    (natToCharsAux fuel n).foldl (fun a c => a * 10 + (c.toNat - 48)) a
      = a * 10 ^ (natToCharsAux fuel n).length + n := by
  intro fuel
  induction fuel with
  | zero =>
    intro n h
    exact absurd h (Nat.not_lt_zero n)
  | succ fuel ih =>
    intro n h a
    rw [natToCharsAux]
    split
    · rename_i h10
      simp [digitChar_toNat h10]
    · rename_i h10
      rw [List.foldl_append, List.length_append]
      rw [ih (n / 10) (by omega)]
      simp only [List.foldl, List.length]
      rw [digitChar_toNat (Nat.mod_lt n (by omega))]
      have h1 : 48 + n % 10 - 48 = n % 10 := by omega
      rw [h1]
      have hdm : 10 * (n / 10) + n % 10 = n := Nat.div_add_mod n 10
      calc (a * 10 ^ (natToCharsAux fuel (n / 10)).length + n / 10) * 10 + n % 10
          = a * (10 ^ (natToCharsAux fuel (n / 10)).length * 10) + (10 * (n / 10) + n % 10) := by
            ring
        _ = a * 10 ^ ((natToCharsAux fuel (n / 10)).length + (0 + 1)) + n := by rw [hdm]; ring

theorem natToChars_ne_nil (n : Nat) : natToChars n ≠ [] :=
  natToCharsAux_ne_nil (n + 1) n (by omega)

theorem natToChars_all_digit (n : Nat) : (natToChars n).all Char.isDigit = true :=
  natToCharsAux_all_digit (n + 1) n (by omega)

theorem natToChars_foldl (n : Nat) : ∀ a : Nat,
    (natToChars n).foldl (fun a c => a * 10 + (c.toNat - 48)) a
      = a * 10 ^ (natToChars n).length + n :=
  natToCharsAux_foldl (n + 1) n (by omega)

theorem digitsVal_natToChars (n : Nat) : digitsVal (natToChars n) = n := by
  have h := natToChars_foldl n 0
  simpa [digitsVal] using h

theorem digitsToNat_natToChars (n : Nat) : digitsToNat (natToChars n) = some n := by
  rw [digitsToNat, if_pos ⟨natToChars_ne_nil n, natToChars_all_digit n⟩,
    digitsVal_natToChars]

theorem jsStringToNumber_round (i : Int) :
    jsStringToNumber (jsNumToString i) = some i := by
  rw [jsStringToNumber, jsNumToString]
  by_cases hi : i < 0
  · rw [if_pos hi]
    show jsStringToNumberList ('-' :: natToChars i.natAbs) = some i
    simp only [jsStringToNumberList, if_pos rfl, digitsToNat_natToChars,
      Option.map_some', Int.ofNat_eq_natCast, if_true]
    congr 1
    omega
  · rw [if_neg hi]
    obtain ⟨c, cs, hl⟩ := List.exists_cons_of_ne_nil (natToChars_ne_nil i.natAbs)
    have hdig : c.isDigit = true := by
      have h := natToChars_all_digit i.natAbs
      rw [hl] at h
      simp [List.all_cons] at h
      exact h.1
    have hc1 : ¬ c = '-' := by
      intro h
      rw [h] at hdig
      exact absurd hdig (by decide)
    have hc2 : ¬ c = '+' := by
      intro h
      rw [h] at hdig
      exact absurd hdig (by decide)
    show jsStringToNumberList (natToChars i.natAbs) = some i
    rw [hl]
    simp only [jsStringToNumberList, if_neg hc1, if_neg hc2, ← hl,
      digitsToNat_natToChars, Option.map_some', Int.ofNat_eq_natCast]
    congr 1
    omega

theorem syncDom_boolean_presence (name : String) (v : JSVal) (dom : Dom) :
    hasAttribute (syncDom AttrType.boolean name v dom).1 name = (v == JSVal.bool true) := by
  cases hg : assocGet dom name with
  | none =>
    cases hv : (v == JSVal.bool true) with
    | false => simp [syncDom, hasAttribute, getAttribute, setAttribute, hg, hv]
    | true => simp [syncDom, hasAttribute, getAttribute, setAttribute, hg, hv,
        assocGet_set_self]
  | some s =>
    cases hv : (v == JSVal.bool true) with
    | false => simp [syncDom, hasAttribute, getAttribute, removeAttribute, hg, hv,
        assocGet_remove_self]
    | true => simp [syncDom, hasAttribute, getAttribute, hg, hv]

theorem syncDom_value (t : AttrType) (ht : t ≠ AttrType.boolean) (name : String)
    (v : JSVal) (dom : Dom) :
    getAttribute (syncDom t name v dom).1 name = desiredDomValue v := by
  cases hg : assocGet dom name with
  | none =>
    cases hd : desiredDomValue v with
    | none => simp [syncDom, ht, getAttribute, hg, hd]
    | some s => simp [syncDom, ht, getAttribute, setAttribute, hg, hd, assocGet_set_self]
  | some s0 =>
    cases hd : desiredDomValue v with
    | none => simp [syncDom, ht, getAttribute, removeAttribute, hg, hd,
        assocGet_remove_self]
    | some s =>
      by_cases he : s0 = s
      · simp [syncDom, ht, getAttribute, hg, hd, he]
      · simp [syncDom, ht, getAttribute, setAttribute, hg, hd, he, assocGet_set_self]

theorem syncDom_cases (t : AttrType) (name : String) (v : JSVal) (dom : Dom) :
    (syncDom t name v dom).2 = true ∨ syncDom t name v dom = (dom, false) := by
  unfold syncDom
  by_cases h1 : t = AttrType.boolean
  · simp only [if_pos h1]
    by_cases h2 : hasAttribute dom name ≠ (v == JSVal.bool true)
    · simp [h2]
    · simp [h2]
  · simp only [if_neg h1]
    by_cases h2 : getAttribute dom name ≠ desiredDomValue v
    · simp [h2]
    · simp [h2]

theorem watchCallback_dom (config : EffConfig) (v : JSVal) (st : EngineState)
    (ha : st.attached = true) :
    (watchCallback config v st).dom = (syncDom config.type config.attr v st.dom).1 := by
  rcases syncDom_cases config.type config.attr v st.dom with hw | hw
  · simp [watchCallback, ha, hw]
  · simp [watchCallback, ha, hw]

theorem watchCallback_cells (config : EffConfig) (v : JSVal) (st : EngineState) :
    (watchCallback config v st).cells = st.cells := by
  simp only [watchCallback]
  split_ifs <;> rfl

theorem cellWrite_dom (config : EffConfig) (v : JSVal) (st : EngineState)
    (ha : st.attached = true) :
    (cellWrite config v st).dom = (syncDom config.type config.attr v st.dom).1 := by
  rw [cellWrite]
  exact watchCallback_dom config v _ ha

theorem cellWrite_cells (config : EffConfig) (v : JSVal) (st : EngineState) :
    (cellWrite config v st).cells = storeSet st.cells config.ref v := by
  rw [cellWrite]
  exact watchCallback_cells config v _

theorem jsval_beq_bool_true (b : Bool) : (JSVal.bool b == JSVal.bool true) = b := by
  cases b <;> decide

theorem interpretInitial_matches (t : AttrType) (v : JSVal) (dom : Dom) (name : String)
    (hw : wellTyped t v = true)
    (hm : domMatches t v (getAttribute dom name) = true) :
    interpretInitial t dom name = v := by
  cases t <;> cases v <;>
    simp_all [wellTyped, domMatches, interpretInitial, hasAttribute, desiredDomValue,
      jsToString, jsStringToNumber_round, jsval_beq_bool_true]

theorem storeGet_set_self (cells : Cells) (r : Nat) (v : JSVal) :
    storeGet (storeSet cells r v) r = v := by
  simp [storeGet, storeSet, assocGet_set_self]

theorem syncDom_boolean_sets_empty (name : String) (v : JSVal) (dom : Dom)
    (hp : hasAttribute dom name = false) (hv : v = JSVal.bool true) :
    getAttribute (syncDom AttrType.boolean name v dom).1 name = some "" := by
  subst hv
  have hg : assocGet dom name = none := by
    cases hg : assocGet dom name with
    | none => rfl
    | some s =>
      rw [hasAttribute, getAttribute, hg] at hp
      simp at hp
  simp [syncDom, hasAttribute, getAttribute, setAttribute, hg, assocGet_set_self]

theorem configStep_foldl_agree (l : List AttributeRefConfig) :
    ∀ a b : ConfigResult, a.map = b.map → a.cells = b.cells →
      (l.foldl configStep a).map = (l.foldl configStep b).map ∧
      (l.foldl configStep a).cells = (l.foldl configStep b).cells := by
  induction l with
  | nil =>
    intro a b h1 h2
    exact ⟨h1, h2⟩
  | cons c rest ih =>
    intro a b h1 h2
    simp only [List.foldl_cons]
    by_cases h : declValid c
    · exact ih _ _ (by simp [configStep, h, h1]) (by simp [configStep, h, h1, h2])
    · exact ih _ _ (by simp [configStep, h, h1]) (by simp [configStep, h, h2])

theorem configStep_foldl_warnings (l : List AttributeRefConfig) :
    ∀ a : ConfigResult, (l.foldl configStep a).warnings
      = a.warnings + (l.filter (fun c => !(declValid c))).length := by
  induction l with
  | nil =>
    intro a
    simp
  | cons c rest ih =>
    intro a
    by_cases h : declValid c
    · simp [List.foldl_cons, List.filter_cons, h, ih, configStep]
    · simp [List.foldl_cons, List.filter_cons, h, ih, configStep]
      omega

theorem configStep_foldl_filter (l : List AttributeRefConfig) :
    ∀ a : ConfigResult,
      (l.foldl configStep a).map
        = ((l.filter (fun c => declValid c)).foldl configStep a).map ∧
      (l.foldl configStep a).cells
        = ((l.filter (fun c => declValid c)).foldl configStep a).cells := by
  induction l with
  | nil =>
    intro a
    exact ⟨rfl, rfl⟩
  | cons c rest ih =>
    intro a
    by_cases h : declValid c
    · simp only [List.filter_cons, h, if_pos, List.foldl_cons]
      exact ih _
    · simp only [List.filter_cons, List.foldl_cons]
      rw [if_neg (by simp [h])]
      have hag := configStep_foldl_agree rest (configStep a c) a
        (by simp [configStep, h]) (by simp [configStep, h])
      exact ⟨hag.1.trans (ih a).1, hag.2.trans (ih a).2⟩

/-- C9: for every input list of declarations, each declaration missing its
attribute name or its cell is rejected individually with a logged warning and
contributes no binding, while every other declaration in the list is still
processed into the binding table (processing is not aborted): the warning
count is exactly the number of invalid declarations, and the resulting
binding table and ref store are those obtained by processing only the valid
declarations. -/
theorem c9_invalid_skipped_rest_processed (attrs : List AttributeRefConfig)
    (cells : Cells) :
    (makeAttributeConfigMap attrs cells).warnings
      = (attrs.filter (fun c => !(declValid c))).length ∧
    (makeAttributeConfigMap attrs cells).map
      = (makeAttributeConfigMap (attrs.filter (fun c => declValid c)) cells).map ∧
    (makeAttributeConfigMap attrs cells).cells
      = (makeAttributeConfigMap (attrs.filter (fun c => declValid c)) cells).cells := by
  refine ⟨?_, ?_, ?_⟩
  · simpa using configStep_foldl_warnings attrs ⟨[], cells, 0⟩
  · exact (configStep_foldl_filter attrs ⟨[], cells, 0⟩).1
  · exact (configStep_foldl_filter attrs ⟨[], cells, 0⟩).2

/-- C10: a declaration whose attribute name is the empty string, or whose
cell reference is falsy (missing / `null` / `undefined`), is rejected and
skipped exactly like a declaration with the field missing — validity is a
truthiness test — and it never produces a binding: normalization treats it
identically to the `attr = none` declaration, contributes nothing to the
binding table or ref store, and adds exactly one warning. -/
theorem c10_empty_name_or_falsy_ref_rejected (c : AttributeRefConfig)
    (rest : List AttributeRefConfig) (cells : Cells)
    (h : c.attr = some "" ∨ c.ref = none) :
    declValid c = false ∧
    makeAttributeConfigMap (c :: rest) cells
      = makeAttributeConfigMap (⟨none, c.ref, c.type, c.reflect⟩ :: rest) cells ∧
    (makeAttributeConfigMap (c :: rest) cells).map
      = (makeAttributeConfigMap rest cells).map ∧
    (makeAttributeConfigMap (c :: rest) cells).cells
      = (makeAttributeConfigMap rest cells).cells ∧
    (makeAttributeConfigMap (c :: rest) cells).warnings
      = (makeAttributeConfigMap rest cells).warnings + 1 := by
  have hv : declValid c = false := by
    rcases h with h | h <;> simp [declValid, h]
  have hstep : configStep ⟨[], cells, 0⟩ c = ⟨[], cells, 1⟩ := by
    simp [configStep, hv]
  have hstep2 : configStep ⟨[], cells, 0⟩ ⟨none, c.ref, c.type, c.reflect⟩
      = ⟨[], cells, 1⟩ := by
    simp [configStep, declValid]
  refine ⟨hv, ?_, ?_, ?_, ?_⟩
  · rw [makeAttributeConfigMap, makeAttributeConfigMap, List.foldl_cons,
      List.foldl_cons, hstep, hstep2]
  · rw [makeAttributeConfigMap, makeAttributeConfigMap, List.foldl_cons, hstep]
    exact (configStep_foldl_agree rest ⟨[], cells, 1⟩ ⟨[], cells, 0⟩ rfl rfl).1
  · rw [makeAttributeConfigMap, makeAttributeConfigMap, List.foldl_cons, hstep]
    exact (configStep_foldl_agree rest ⟨[], cells, 1⟩ ⟨[], cells, 0⟩ rfl rfl).2
  · rw [makeAttributeConfigMap, makeAttributeConfigMap, List.foldl_cons, hstep]
    rw [configStep_foldl_warnings rest ⟨[], cells, 1⟩,
      configStep_foldl_warnings rest ⟨[], cells, 0⟩]
    simp
    omega

/-- C10 witness: the empty-string-named declaration is rejected, processing
continues with the remaining declaration. -/
theorem c10_witness :
    declValid ⟨some "", some 0, none, none⟩ = false ∧
    makeAttributeConfigMap [⟨some "", some 0, none, none⟩,
        ⟨some "ok", some 1, none, none⟩] []
      = makeAttributeConfigMap [⟨none, some 0, none, none⟩,
        ⟨some "ok", some 1, none, none⟩] [] ∧
    (makeAttributeConfigMap [⟨some "", some 0, none, none⟩,
        ⟨some "ok", some 1, none, none⟩] []).map
      = (makeAttributeConfigMap [⟨some "ok", some 1, none, none⟩] []).map ∧
    (makeAttributeConfigMap [⟨some "", some 0, none, none⟩,
        ⟨some "ok", some 1, none, none⟩] []).cells
      = (makeAttributeConfigMap [⟨some "ok", some 1, none, none⟩] []).cells ∧
    (makeAttributeConfigMap [⟨some "", some 0, none, none⟩,
        ⟨some "ok", some 1, none, none⟩] []).warnings
      = (makeAttributeConfigMap [⟨some "ok", some 1, none, none⟩] []).warnings + 1 :=
  c10_empty_name_or_falsy_ref_rejected ⟨some "", some 0, none, none⟩
    [⟨some "ok", some 1, none, none⟩] [] (Or.inl rfl)

/-- C8: for every accepted declaration, the resulting binding's effective
type is the declared one when supplied and String otherwise, and its
effective reflect flag is the declared one when supplied and `true`
otherwise; the binding stored in the table is exactly this effective
configuration. -/
theorem c8_optional_field_defaults (name : String) (r : Nat)
    (oty : Option AttrType) (orf : Option Bool) (cells : Cells)
    (hname : name ≠ "") :
    assocGet (makeAttributeConfigMap [⟨some name, some r, oty, orf⟩] cells).map name
      = some (effectiveOf ⟨some name, some r, oty, orf⟩) ∧
    (effectiveOf ⟨some name, some r, oty, orf⟩).type = oty.getD AttrType.string ∧
    (effectiveOf ⟨some name, some r, oty, orf⟩).reflect = orf.getD true := by
  refine ⟨?_, rfl, rfl⟩
  simp [makeAttributeConfigMap, configStep, declValid, hname, effectiveOf,
    assocSet, assocGet]

/-- C8 witness: a declaration supplying neither optional field yields a
String-typed binding with reflect enabled. -/
theorem c8_witness :
    assocGet (makeAttributeConfigMap [⟨some "text", some 0, none, none⟩] []).map "text"
      = some (effectiveOf ⟨some "text", some 0, none, none⟩) ∧
    (effectiveOf ⟨some "text", some 0, none, none⟩).type
      = (none : Option AttrType).getD AttrType.string ∧
    (effectiveOf ⟨some "text", some 0, none, none⟩).reflect
      = (none : Option Bool).getD true :=
  c8_optional_field_defaults "text" 0 none none [] (by decide)

/-- C7: during configuration normalization, a declaration whose cell's
current value is neither boolean, `null` nor `undefined` has that value
replaced in place before first reconciliation: by its truthiness conversion
for a Boolean-typed declaration, and by its numeric parse (unparsable
becoming `null`) for a Number-typed one. -/
theorem c7_registration_type_coercion (name : String) (r : Nat) (ty : AttrType)
    (orf : Option Bool) (cells : Cells)
    (hname : name ≠ "")
    (hb : isType (storeGet cells r) (some "boolean") = false)
    (hn : isType (storeGet cells r) none = false)
    (hu : isType (storeGet cells r) (some "undefined") = false) :
    (ty = AttrType.boolean →
      storeGet (makeAttributeConfigMap [⟨some name, some r, some ty, orf⟩] cells).cells r
        = JSVal.bool (jsTruthy (storeGet cells r))) ∧
    (ty = AttrType.number →
      storeGet (makeAttributeConfigMap [⟨some name, some r, some ty, orf⟩] cells).cells r
        = (match jsToNumber (storeGet cells r) with
           | none => JSVal.null
           | some n => JSVal.num n)) := by
  constructor
  · intro h
    subst h
    simp [makeAttributeConfigMap, configStep, declValid, hname, effectiveOf,
      coerceRegistration, hb, hn, hu, storeGet_set_self]
  · intro h
    subst h
    simp [makeAttributeConfigMap, configStep, declValid, hname, effectiveOf,
      coerceRegistration, hb, hn, hu, storeGet_set_self]

/-- C7 witness: a Boolean binding whose initial cell value is the string
`"yes"` is coerced to `true` at registration. -/
theorem c7_witness :
    storeGet (makeAttributeConfigMap [⟨some "flag", some 0, some AttrType.boolean, none⟩]
        [(0, JSVal.str "yes")]).cells 0
      = JSVal.bool (jsTruthy (storeGet [(0, JSVal.str "yes")] 0)) :=
  (c7_registration_type_coercion "flag" 0 AttrType.boolean none [(0, JSVal.str "yes")]
    (by decide) (by decide) (by decide) (by decide)).1 rfl

/-- C4: for a binding with `reflect = false`, processing an external
attribute-change record leaves the bound cell's value unchanged, while
`onAttributeChange` — when provided, when the self-write marker is not set,
and when the old raw value differs from the new raw value — is still invoked
with that record's attribute name, old raw value, new raw value, and
interpreted value. -/
theorem c4_reflect_false_one_way (configMap : List (String × EffConfig))
    (config : EffConfig) (rec : MutationRecord) (hasCallback : Bool)
    (st : EngineState)
    (ha : st.attached = true)
    (h1 : rec.isAttributes = true) (h2 : rec.targetIsCurrent = true)
    (hc : assocGet configMap rec.attributeName = some config)
    (hr : config.reflect = false) :
    (observerCallback configMap hasCallback st [rec]).cells = st.cells ∧
    (st.flag = false → hasCallback = true →
      rec.oldValue ≠ getAttribute st.dom rec.attributeName →
      (observerCallback configMap hasCallback st [rec]).callbackLog =
        st.callbackLog ++ [(rec.attributeName, rec.oldValue,
          getAttribute st.dom rec.attributeName,
          interpretObserver config.type st.dom rec.attributeName)]) := by
  have hob : observerCallback configMap hasCallback st [rec]
      = processRecord configMap hasCallback st rec := by
    simp [observerCallback, ha]
  rw [hob]
  constructor
  · simp [processRecord, h1, h2, hc, hr]
  · intro hf hcb hne
    simp [processRecord, h1, h2, hc, hr, hf, hcb, hne]

/-- C4 witness: an external change of `paragraph` on a `reflect: false`
String binding leaves the cell untouched but is reported. -/
theorem c4_witness :
    (observerCallback [("paragraph", ⟨"paragraph", 0, AttrType.string, false⟩)] true
        ⟨true, [("paragraph", "NEW TEXT")], [(0, JSVal.str "default text")], false, []⟩
        [⟨true, true, "paragraph", none⟩]).cells
      = (⟨true, [("paragraph", "NEW TEXT")], [(0, JSVal.str "default text")], false,
          []⟩ : EngineState).cells ∧
    ((⟨true, [("paragraph", "NEW TEXT")], [(0, JSVal.str "default text")], false,
        []⟩ : EngineState).flag = false → true = true →
      (⟨true, true, "paragraph", none⟩ : MutationRecord).oldValue
        ≠ getAttribute [("paragraph", "NEW TEXT")] "paragraph" →
      (observerCallback [("paragraph", ⟨"paragraph", 0, AttrType.string, false⟩)] true
          ⟨true, [("paragraph", "NEW TEXT")], [(0, JSVal.str "default text")], false, []⟩
          [⟨true, true, "paragraph", none⟩]).callbackLog
        = [] ++ [("paragraph", none, getAttribute [("paragraph", "NEW TEXT")] "paragraph",
            interpretObserver AttrType.string [("paragraph", "NEW TEXT")] "paragraph")]) :=
  c4_reflect_false_one_way [("paragraph", ⟨"paragraph", 0, AttrType.string, false⟩)]
    ⟨"paragraph", 0, AttrType.string, false⟩ ⟨true, true, "paragraph", none⟩ true
    ⟨true, [("paragraph", "NEW TEXT")], [(0, JSVal.str "default text")], false, []⟩
    rfl rfl rfl (by decide) rfl

theorem initialSyncOne_cells (config : EffConfig) (st : EngineState) :
    (initialSyncOne config st).cells =
      (if config.reflect then
        (if storeGet st.cells config.ref
            ≠ interpretInitial config.type (initialSyncOne config st).dom config.attr
         then storeSet st.cells config.ref
            (interpretInitial config.type (initialSyncOne config st).dom config.attr)
         else st.cells)
       else st.cells) := rfl

/-- C5: for every Boolean-typed binding, immediately after an outbound
cell-write sync the attribute is present iff the written value is exactly
`true`, and after initial reconciliation the attribute is present iff the
cell's (possibly pulled) value is exactly `true`; whenever either step sets
a previously absent attribute, its content is the empty string. -/
theorem c5_boolean_presence_invariant (config : EffConfig) (st : EngineState)
    (v : JSVal) (ht : config.type = AttrType.boolean) (ha : st.attached = true) :
    hasAttribute (cellWrite config v st).dom config.attr = (v == JSVal.bool true) ∧
    (hasAttribute st.dom config.attr = false → v = JSVal.bool true →
      getAttribute (cellWrite config v st).dom config.attr = some "") ∧
    hasAttribute (initialSyncOne config st).dom config.attr
      = (storeGet (initialSyncOne config st).cells config.ref == JSVal.bool true) ∧
    (hasAttribute st.dom config.attr = false →
      storeGet st.cells config.ref = JSVal.bool true →
      getAttribute (initialSyncOne config st).dom config.attr = some "") := by
  have hmdom : (initialSyncOne config st).dom
      = (syncDom config.type config.attr (storeGet st.cells config.ref) st.dom).1 := rfl
  refine ⟨?_, ?_, ?_, ?_⟩
  · rw [cellWrite_dom config v st ha, ht]
    exact syncDom_boolean_presence config.attr v st.dom
  · intro hp hv
    rw [cellWrite_dom config v st ha, ht]
    exact syncDom_boolean_sets_empty config.attr v st.dom hp hv
  · have hpres : hasAttribute (initialSyncOne config st).dom config.attr
        = (storeGet st.cells config.ref == JSVal.bool true) := by
      rw [hmdom, ht]
      exact syncDom_boolean_presence config.attr (storeGet st.cells config.ref) st.dom
    have hint : interpretInitial config.type (initialSyncOne config st).dom config.attr
        = JSVal.bool (storeGet st.cells config.ref == JSVal.bool true) := by
      rw [ht]
      simp [interpretInitial, hpres]
    rw [hpres, initialSyncOne_cells, hint]
    split_ifs with h1 h2
    · rw [storeGet_set_self, jsval_beq_bool_true]
    · rfl
    · rfl
  · intro hp hv
    rw [hmdom, ht]
    exact syncDom_boolean_sets_empty config.attr (storeGet st.cells config.ref) st.dom hp hv

/-- C5 witness: writing `true` to a Boolean binding's cell on an element
without the attribute sets it with empty content, and the invariant holds
after initial reconciliation. -/
theorem c5_witness :
    hasAttribute (cellWrite ⟨"disabled", 0, AttrType.boolean, true⟩ (JSVal.bool true)
        ⟨true, [], [(0, JSVal.bool false)], false, []⟩).dom "disabled"
      = (JSVal.bool true == JSVal.bool true) ∧
    (hasAttribute ([] : Dom) "disabled" = false → JSVal.bool true = JSVal.bool true →
      getAttribute (cellWrite ⟨"disabled", 0, AttrType.boolean, true⟩ (JSVal.bool true)
          ⟨true, [], [(0, JSVal.bool false)], false, []⟩).dom "disabled" = some "") ∧
    hasAttribute (initialSyncOne ⟨"disabled", 0, AttrType.boolean, true⟩
        ⟨true, [], [(0, JSVal.bool false)], false, []⟩).dom "disabled"
      = (storeGet (initialSyncOne ⟨"disabled", 0, AttrType.boolean, true⟩
          ⟨true, [], [(0, JSVal.bool false)], false, []⟩).cells 0 == JSVal.bool true) ∧
    (hasAttribute ([] : Dom) "disabled" = false →
      storeGet [(0, JSVal.bool false)] 0 = JSVal.bool true →
      getAttribute (initialSyncOne ⟨"disabled", 0, AttrType.boolean, true⟩
          ⟨true, [], [(0, JSVal.bool false)], false, []⟩).dom "disabled" = some "") :=
  c5_boolean_presence_invariant ⟨"disabled", 0, AttrType.boolean, true⟩
    ⟨true, [], [(0, JSVal.bool false)], false, []⟩ (JSVal.bool true) rfl rfl

/-- C6: for every String- or Number-typed binding, an outbound sync
triggered by setting the cell to `null` removes the attribute from the
element, and (when `reflect = true`) an inbound record processed while the
attribute is absent (new raw value `null`) sets the cell to `null`. -/
theorem c6_null_round_trip (config : EffConfig) (st1 st2 : EngineState)
    (configMap : List (String × EffConfig)) (rec : MutationRecord)
    (hasCallback : Bool)
    (ht : config.type = AttrType.string ∨ config.type = AttrType.number)
    (ha1 : st1.attached = true) (ha2 : st2.attached = true)
    (h1 : rec.isAttributes = true) (h2 : rec.targetIsCurrent = true)
    (hc : assocGet configMap rec.attributeName = some config)
    (hr : config.reflect = true)
    (habs : getAttribute st2.dom rec.attributeName = none) :
    getAttribute (cellWrite config JSVal.null st1).dom config.attr = none ∧
    storeGet (observerCallback configMap hasCallback st2 [rec]).cells config.ref
      = JSVal.null := by
  have hne : config.type ≠ AttrType.boolean := by
    rcases ht with h | h <;> rw [h] <;> decide
  constructor
  · rw [cellWrite_dom config JSVal.null st1 ha1,
      syncDom_value config.type hne config.attr JSVal.null st1.dom]
    rfl
  · have hint : interpretObserver config.type st2.dom rec.attributeName
        = JSVal.null := by
      simp [interpretObserver, hne, habs]
    have hob : observerCallback configMap hasCallback st2 [rec]
        = processRecord configMap hasCallback st2 rec := by
      simp [observerCallback, ha2]
    rw [hob]
    by_cases hcur : storeGet st2.cells config.ref = JSVal.null
    · simp [processRecord, h1, h2, hc, hr, hint, hcur]
    · simp [processRecord, h1, h2, hc, hr, hint, hcur, storeGet_set_self]

/-- C6 witness: on a String binding with reflect enabled, writing `null`
removes the attribute and an inbound removal record nulls the cell. -/
theorem c6_witness :
    getAttribute (cellWrite ⟨"text", 0, AttrType.string, true⟩ JSVal.null
        ⟨true, [("text", "x")], [(0, JSVal.str "x")], false, []⟩).dom "text" = none ∧
    storeGet (observerCallback [("text", ⟨"text", 0, AttrType.string, true⟩)] true
        ⟨true, [], [(0, JSVal.str "x")], false, []⟩
        [⟨true, true, "text", some "x"⟩]).cells 0 = JSVal.null :=
  c6_null_round_trip ⟨"text", 0, AttrType.string, true⟩
    ⟨true, [("text", "x")], [(0, JSVal.str "x")], false, []⟩
    ⟨true, [], [(0, JSVal.str "x")], false, []⟩
    [("text", ⟨"text", 0, AttrType.string, true⟩)]
    ⟨true, true, "text", some "x"⟩ true (Or.inl rfl) rfl rfl rfl rfl (by decide)
    rfl rfl

/-- C1 counterexample: with `reflect: true`, cell default `"default text"`
and pre-attach attribute `text="NEW TEXT"`, initial reconciliation leaves
the cell at `"default text"` and overwrites the attribute to
`"default text"` — the element's prior state does not win, refuting the
claim's predicted `"NEW TEXT"`. -/
theorem c1_counterexample :
    storeGet (mountedCallback [("text", ⟨"text", 0, AttrType.string, true⟩)]
        ⟨true, [("text", "NEW TEXT")], [(0, JSVal.str "default text")], false,
          []⟩).cells 0
      = JSVal.str "default text" ∧
    getAttribute (mountedCallback [("text", ⟨"text", 0, AttrType.string, true⟩)]
        ⟨true, [("text", "NEW TEXT")], [(0, JSVal.str "default text")], false,
          []⟩).dom "text"
      = some "default text" ∧
    ¬ storeGet (mountedCallback [("text", ⟨"text", 0, AttrType.string, true⟩)]
        ⟨true, [("text", "NEW TEXT")], [(0, JSVal.str "default text")], false,
          []⟩).cells 0
      = JSVal.str "NEW TEXT" := by
  refine ⟨rfl, rfl, ?_⟩
  decide

/-- C1 (amended): for every binding with `reflect = true` and a well-typed
cell value, initial reconciliation at attach first pushes the cell's value
to the element — overwriting any differing pre-existing attribute state —
and then pulls back the just-pushed state, so the cell always keeps its
original value (the cell's value wins over the element's pre-existing
attribute state), and that value is then also present on the element. -/
theorem c1_initial_reconciliation_cell_wins (config : EffConfig)
    (st : EngineState) (_hr : config.reflect = true)
    (hw : wellTyped config.type (storeGet st.cells config.ref) = true) :
    storeGet (initialSyncOne config st).cells config.ref
      = storeGet st.cells config.ref ∧
    domMatches config.type (storeGet st.cells config.ref)
      (getAttribute (initialSyncOne config st).dom config.attr) = true := by
  have hmdom : (initialSyncOne config st).dom
      = (syncDom config.type config.attr (storeGet st.cells config.ref) st.dom).1 := rfl
  have hm : domMatches config.type (storeGet st.cells config.ref)
      (getAttribute (initialSyncOne config st).dom config.attr) = true := by
    by_cases hb : config.type = AttrType.boolean
    · rw [domMatches, if_pos hb]
      have hp : hasAttribute (initialSyncOne config st).dom config.attr
          = (storeGet st.cells config.ref == JSVal.bool true) := by
        rw [hmdom, hb]
        exact syncDom_boolean_presence config.attr (storeGet st.cells config.ref) st.dom
      rw [hasAttribute] at hp
      rw [hp]
      exact beq_self_eq_true _
    · rw [domMatches, if_neg hb, hmdom,
        syncDom_value config.type hb config.attr (storeGet st.cells config.ref) st.dom]
      exact beq_self_eq_true _
  have hi : interpretInitial config.type (initialSyncOne config st).dom config.attr
      = storeGet st.cells config.ref :=
    interpretInitial_matches config.type (storeGet st.cells config.ref)
      (initialSyncOne config st).dom config.attr hw hm
  refine ⟨?_, hm⟩
  rw [initialSyncOne_cells, hi]
  simp

/-- C1 witness: a `reflect: true` String binding with cell `"default text"`
and pre-attach attribute `"NEW TEXT"` keeps the cell value and matches the
element to it. -/
theorem c1_witness :
    wellTyped AttrType.string
      (storeGet [(0, JSVal.str "default text")] 0) = true ∧
    (storeGet (initialSyncOne ⟨"text", 0, AttrType.string, true⟩
        ⟨true, [("text", "NEW TEXT")], [(0, JSVal.str "default text")], false,
          []⟩).cells 0
      = storeGet [(0, JSVal.str "default text")] 0 ∧
    domMatches AttrType.string (storeGet [(0, JSVal.str "default text")] 0)
      (getAttribute (initialSyncOne ⟨"text", 0, AttrType.string, true⟩
          ⟨true, [("text", "NEW TEXT")], [(0, JSVal.str "default text")], false,
            []⟩).dom "text") = true) :=
  ⟨by decide,
   c1_initial_reconciliation_cell_wins ⟨"text", 0, AttrType.string, true⟩
     ⟨true, [("text", "NEW TEXT")], [(0, JSVal.str "default text")], false, []⟩
     rfl (by decide)⟩

/-- C2: the source's MutationObserver callback has no Number branch
(`interpretedNewValue = newValue ?? null` for every non-Boolean binding), so
for a Number-typed binding with `reflect: true` an inbound record assigns
the raw string, not its numeric parse: attribute `"42"` yields the string
`"42"` (not the number `42`), attribute `"abc"` yields the string `"abc"`
(not `null`); only an absent attribute yields `null` as the claim states. -/
theorem c2_observer_number_missing_parse :
    storeGet (observerCallback [("count", ⟨"count", 0, AttrType.number, true⟩)] true
        ⟨true, [("count", "42")], [(0, JSVal.null)], false, []⟩
        [⟨true, true, "count", none⟩]).cells 0 = JSVal.str "42" ∧
    ¬ storeGet (observerCallback [("count", ⟨"count", 0, AttrType.number, true⟩)] true
        ⟨true, [("count", "42")], [(0, JSVal.null)], false, []⟩
        [⟨true, true, "count", none⟩]).cells 0 = JSVal.num 42 ∧
    storeGet (observerCallback [("count", ⟨"count", 0, AttrType.number, true⟩)] true
        ⟨true, [("count", "abc")], [(0, JSVal.null)], false, []⟩
        [⟨true, true, "count", none⟩]).cells 0 = JSVal.str "abc" ∧
    ¬ storeGet (observerCallback [("count", ⟨"count", 0, AttrType.number, true⟩)] true
        ⟨true, [("count", "abc")], [(0, JSVal.null)], false, []⟩
        [⟨true, true, "count", none⟩]).cells 0 = JSVal.null ∧
    storeGet (observerCallback [("count", ⟨"count", 0, AttrType.number, true⟩)] true
        ⟨true, [], [(0, JSVal.num 5)], false, []⟩
        [⟨true, true, "count", some "5"⟩]).cells 0 = JSVal.null := by
  refine ⟨rfl, ?_, rfl, ?_, rfl⟩ <;> decide

/-- C3: the engine's own outbound DOM write is shielded from
`onAttributeChange` by the `isUpdatingDomFromRef` marker (the callback log
stays empty), but the observer's reflect branch does not consult the marker
and, lacking a Number branch, re-assigns a Number-typed cell the raw string
form of the value just written: after writing `42` the cell ends as the
string `"42"`, not the just-written number `42`. -/
theorem c3_self_write_number_reassigned :
    (cellWrite ⟨"count", 0, AttrType.number, true⟩ (JSVal.num 42)
        ⟨true, [], [(0, JSVal.null)], false, []⟩).cells = [(0, JSVal.num 42)] ∧
    getAttribute (cellWrite ⟨"count", 0, AttrType.number, true⟩ (JSVal.num 42)
        ⟨true, [], [(0, JSVal.null)], false, []⟩).dom "count" = some "42" ∧
    (cellWrite ⟨"count", 0, AttrType.number, true⟩ (JSVal.num 42)
        ⟨true, [], [(0, JSVal.null)], false, []⟩).flag = true ∧
    (observerCallback [("count", ⟨"count", 0, AttrType.number, true⟩)] true
        (cellWrite ⟨"count", 0, AttrType.number, true⟩ (JSVal.num 42)
          ⟨true, [], [(0, JSVal.null)], false, []⟩)
        [⟨true, true, "count", none⟩]).callbackLog = [] ∧
    storeGet (observerCallback [("count", ⟨"count", 0, AttrType.number, true⟩)] true
        (cellWrite ⟨"count", 0, AttrType.number, true⟩ (JSVal.num 42)
          ⟨true, [], [(0, JSVal.null)], false, []⟩)
        [⟨true, true, "count", none⟩]).cells 0 = JSVal.str "42" ∧
    ¬ storeGet (observerCallback [("count", ⟨"count", 0, AttrType.number, true⟩)] true
        (cellWrite ⟨"count", 0, AttrType.number, true⟩ (JSVal.num 42)
          ⟨true, [], [(0, JSVal.null)], false, []⟩)
        [⟨true, true, "count", none⟩]).cells 0 = JSVal.num 42 := by
  decide
